import Mathlib

set_option autoImplicit false

/-! Shallow embedding of the WireGuard peer server core
    (`src/interface/peer_server.rs`) and of the per-peer session
    machinery it relies on.  Pure data is modelled directly; the
    cryptographic engine, the routing trie and the random index
    generator are abstracted as an environment of oracle functions,
    since their implementations live outside this module.  Time is a
    natural number of milliseconds. -/

/-- Timer and size constants (values fixed by the specification,
`consts.rs` itself is not part of this module).  All durations in
milliseconds. -/
def REKEY_TIMEOUT : Nat := 5000

/-- Rekey-after-time constant, in milliseconds. -/
def REKEY_AFTER_TIME : Nat := 120000

/-- Reject-after-time constant, in milliseconds. -/
def REJECT_AFTER_TIME : Nat := 180000

/-- Rekey-attempt-time constant, in milliseconds. -/
def REKEY_ATTEMPT_TIME : Nat := 90000

/-- Keepalive timeout constant, in milliseconds. -/
def KEEPALIVE_TIMEOUT : Nat := 10000

/-- Timer tick duration, in milliseconds. -/
def TIMER_TICK_DURATION : Nat := 100

/-- Maximum inner (plaintext) packet size in bytes. -/
def MAX_CONTENT_SIZE : Nat := 65535

/-- A session produced by a Noise handshake (slots of the per-peer
session ring). -/
structure Session where
  ourIndex : Nat
  theirIndex : Nat
  established : Bool
  lastSent : Option Nat
  lastRecv : Option Nat
  sendCounter : Nat
  deriving DecidableEq

/-- The three session slots of a peer (`sessions.past / current / next`
in the source). -/
structure Sessions where
  past : Option Session
  current : Option Session
  next : Option Session
  deriving DecidableEq

/-- Which slot a session was found in (`SessionType` in the source). -/
inductive SessionType where
  | Past
  | Current
  | Next
  deriving DecidableEq

/-- Static peer configuration relevant to the handlers. -/
structure PeerInfo where
  pubkey : Nat
  keepAliveInterval : Option Nat
  deriving DecidableEq

/-- Mutable per-peer state (`Peer` in the source; endpoints and socket
addresses are modelled as opaque natural numbers, packets as byte
lists). -/
structure Peer where
  info : PeerInfo
  sessions : Sessions
  endpoint : Option Nat
  outgoingQueue : List (List Nat)
  lastSentInit : Option Nat
  lastTunQueue : Option Nat
  lastHandshake : Option Nat
  txBytes : Nat
  rxBytes : Nat
  deriving DecidableEq

/-- Process-wide interface keys (`InterfaceInfo`). -/
structure InterfaceInfo where
  privateKey : Option Nat
  pubKey : Option Nat
  deriving DecidableEq

/-- The mutable state owned by the peer server: an arena of peers
(peer handles are list positions), the pubkey map and the session
index map, both as association lists. -/
structure State where
  interfaceInfo : InterfaceInfo
  peers : List Peer
  pubkeyMap : List (Nat × Nat)
  indexMap : List (Nat × Nat)
  deriving DecidableEq

/-- Timer messages (`TimerMessage` in the source); the peer reference
is a peer handle. -/
inductive TimerMsg where
  | Rekey (pid : Nat) (ourIndex : Nat)
  | Reject (pid : Nat) (ourIndex : Nat)
  | PassiveKeepAlive (pid : Nat) (ourIndex : Nat)
  | PersistentKeepAlive (pid : Nat) (ourIndex : Nat)
  deriving DecidableEq

/-- Observable effects of one handler run: UDP datagrams spawned via
`send_to_peer`, packets spawned via `send_to_tunnel`, and timers
scheduled via `spawn_delayed` (delay in milliseconds). -/
structure Effects where
  udpSends : List (Nat × List Nat)
  tunnelSends : List (List Nat)
  timersSet : List (Nat × TimerMsg)
  deriving DecidableEq

/-- The empty effect set. -/
def Effects.empty : Effects := ⟨[], [], []⟩

/-- Concatenation of effect sets, in program order. -/
def Effects.append (a b : Effects) : Effects :=
  ⟨a.udpSends ++ b.udpSends, a.tunnelSends ++ b.tunnelSends, a.timersSet ++ b.timersSet⟩

/-- The outcome of a handler: `Ok(())`, `Err(e)` (recoverable, the
packet or tick is dropped), or an out-of-bounds slice access (a Rust
panic, not a `Result`). -/
inductive Outcome where
  | ok
  | err (msg : String)
  | oob
  deriving DecidableEq

/-- Oracle environment abstracting the components the peer server
calls into but does not implement: the cookie/mac module, the Noise
engine, index randomness, the routing trie and source validation. -/
structure Env where
  macValid : Nat → List Nat → List Nat → Bool
  noiseInit : Nat → List Nat → Option Nat
  noiseRespOk : List Nat → Bool
  freshIndex : Nat
  mkResponse : Nat → List Nat
  mkInit : Nat → List Nat
  aeadSeal : Nat → List Nat → List Nat
  aeadOpen : Nat → List Nat → Option (List Nat)
  route : List Nat → Option Nat
  validateSource : List Nat → Nat → Bool

/-- Little-endian u32 read at a byte offset; `none` models the Rust
out-of-bounds slice panic of `LittleEndian::read_u32(&packet[off..])`
when fewer than four bytes are available. -/
def readU32le (p : List Nat) (off : Nat) : Option Nat :=
  match p.get? off, p.get? (off + 1), p.get? (off + 2), p.get? (off + 3) with
  | some b0, some b1, some b2, some b3 =>
      some (b0 + b1 * 256 + b2 * 65536 + b3 * 16777216)
  | _, _, _, _ => none

/-- Little-endian u64 read at a byte offset. -/
def readU64le (p : List Nat) (off : Nat) : Option Nat :=
  match readU32le p off, readU32le p (off + 4) with
  | some lo, some hi => some (lo + hi * 4294967296)
  | _, _ => none

/-- Little-endian byte serialization of a u32 value. -/
def u32leBytes (n : Nat) : List Nat :=
  [n % 256, n / 256 % 256, n / 65536 % 256, n / 16777216 % 256]

/-- Little-endian byte serialization of a u64 value. -/
def u64leBytes (n : Nat) : List Nat :=
  u32leBytes (n % 4294967296) ++ u32leBytes (n / 4294967296 % 4294967296)

/-- Association-list lookup (the `HashMap::get` of the index and
pubkey maps). -/
def alistGet (m : List (Nat × Nat)) (k : Nat) : Option Nat :=
  match m with
  | [] => none
  | kv :: rest => if kv.1 = k then some kv.2 else alistGet rest k

/-- Association-list removal (`HashMap::remove`). -/
def alistRemove (m : List (Nat × Nat)) (k : Nat) : List (Nat × Nat) :=
  m.filter (fun kv => kv.1 ≠ k)

/-- Association-list insertion (`HashMap::insert`, replacing any
previous binding). -/
def alistInsert (m : List (Nat × Nat)) (k v : Nat) : List (Nat × Nat) :=
  (k, v) :: alistRemove m k

/-- Peer lookup in the arena. -/
def State.getPeer (st : State) (pid : Nat) : Option Peer :=
  st.peers.get? pid

/-- Peer replacement in the arena. -/
def State.setPeer (st : State) (pid : Nat) (p : Peer) : State :=
  { st with peers := st.peers.set pid p }

/-- Error text of the handshake-init length check. -/
def errInitLen : String := "handshake init packet length is incorrect"

/-- Error text of the handshake-response length check. -/
def errRespLen : String := "handshake resp packet length is incorrect"

/-- Error text when the local interface public key is missing. -/
def errNoPubKey : String := "must have local interface key"

/-- Error text of a failed mac1 verification. -/
def errBadMac1 : String := "mac1 verification failed"

/-- Error text when the local interface private key is missing. -/
def errNoPrivateKey : String := "no private key!"

/-- Error text of a failed inbound Noise handshake. -/
def errNoiseFail : String := "noise handshake processing failed"

/-- Error text of an unknown remote static key. -/
def errUnknownPubkey : String := "unknown peer pubkey"

/-- Error text of an unknown session index. -/
def errUnknownIndex : String := "unknown our_index"

/-- Error text of a failed transport decryption. -/
def errTransportFail : String := "transport processing failed"

/-- Error text of a failed source-IP validation. -/
def errBadSource : String := "source address not within allowed ips"

/-- Error text of a failed egress encryption. -/
def errEncryptFail : String := "failed to encrypt packet"

/-- Error text of type-3 cookie messages. -/
def errCookie : String := "cookie messages not yet supported."

/-- Error text of an unknown first byte. -/
def errUnknownType : String := "unknown wireguard message type"

/-- Error text of the egress size check. -/
def errSizeBounds : String := "egress packet outside of size bounds"

/-- Error text of a route miss. -/
def errNoRoute : String := "no route to peer"

/-- Error text when a timer's peer handle is dangling (cannot occur
through the server's own scheduling). -/
def errNoPeer : String := "unknown peer handle"

/-- Error text when a peer has no endpoint to initiate to. -/
def errNoEndpoint : String := "no known endpoint for peer"

/-- Error text of the too-soon rekey branch. -/
def errRekeySoon : String := "too soon since last init sent"

/-- Error text of the abandoned rekey branch. -/
def errRekeyAttempts : String := "REKEY_ATTEMPT_TIME exceeded"

/-- Error text of the recent-handshake rekey branch. -/
def errRekeyRecent : String := "recent last complete handshake"

/-- Error text of a rekey timer whose index resolves to no live slot. -/
def errDeadSession : String := "index is linked to a dead session, bailing."

/-- Error text of a keepalive timer whose session is gone. -/
def errMissingSession : String := "missing session for timer"

/-- Error text of a passive keepalive timer on a non-current session. -/
def errExpiredPassive : String := "expired session for passive keepalive timer"

/-- Error text of a persistent keepalive timer on a non-current session. -/
def errExpiredPersistent : String := "expired session for persistent keepalive timer"

/-- Error text of the not-yet-due passive keepalive branch. -/
def errKeepaliveTick : String := "passive keepalive tick"

/-- Match a slot against a session index. -/
def slotMatch (s? : Option Session) (idx : Nat) : Option Session :=
  match s? with
  | some s => if s.ourIndex = idx then some s else none
  | none => none

/-- Modelled from the spec: `Peer::find_session`, resolving a 32-bit
our-index against the three session slots (the definition of the slot
ring is not part of this module; §3 "Session Slot"). -/
def Peer.find_session (p : Peer) (idx : Nat) : Option (Session × SessionType) :=
  match slotMatch p.sessions.next idx with
  | some s => some (s, SessionType.Next)
  | none =>
    match slotMatch p.sessions.current idx with
    | some s => some (s, SessionType.Current)
    | none =>
      match slotMatch p.sessions.past idx with
      | some s => some (s, SessionType.Past)
      | none => none

/-- Modelled from the spec: `Peer::ready_for_transport` — §4.4 requires
an established *current* session and a known endpoint for transport. -/
def Peer.ready_for_transport (p : Peer) : Bool :=
  match p.sessions.current, p.endpoint with
  | some s, some _ => s.established
  | _, _ => false

/-- Modelled from the spec: `Peer::needs_new_handshake` — a peer needs
a new handshake when it cannot transport and no initiation is pending
in the *next* slot (§2 data flow: "else enqueue and trigger
handshake"). -/
def Peer.needs_new_handshake (p : Peer) : Bool :=
  p.sessions.next.isNone && !p.ready_for_transport

/-- The 16-byte wire header of a type-4 data message:
`[type=4, 0,0,0, their_index(u32le), counter(u64le)]`. -/
def transportHeader (theirIndex counter : Nat) : List Nat :=
  [4, 0, 0, 0] ++ u32leBytes theirIndex ++ u64leBytes counter

/-- Modelled from the spec: `Peer::handle_outgoing_transport` — §4.4
Encrypt: requires an established *current* session and a known
endpoint; emits the type-4 header plus AEAD ciphertext, increments the
send counter, records the send time and adds to `tx_bytes`. -/
def Peer.handle_outgoing_transport (env : Env) (now : Nat) (p : Peer) (payload : List Nat) :
    Option (Peer × (Nat × List Nat)) :=
  match p.sessions.current, p.endpoint with
  | some s, some ep =>
    if s.established then
      let msg := transportHeader s.theirIndex s.sendCounter ++ env.aeadSeal s.sendCounter payload
      some ({ p with
                sessions := { p.sessions with
                  current := some { s with sendCounter := s.sendCounter + 1, lastSent := some now } },
                txBytes := p.txBytes + msg.length },
            (ep, msg))
    else none
  | _, _ => none

/-- Modelled from the spec: `Peer::complete_incoming_handshake` — §4.3
responder steps 5–7: create the session in *next* with
`their_index = sender_index`, update the endpoint to the datagram
source, serialize the response, and ratchet *next* into *current*
(old *current* to *previous*). -/
def Peer.complete_incoming_handshake (p : Peer) (now addr senderIndex newIndex : Nat)
    (response : List Nat) : Peer × List Nat × Nat :=
  let s : Session :=
    { ourIndex := newIndex, theirIndex := senderIndex, established := true,
      lastSent := none, lastRecv := none, sendCounter := 0 }
  ({ p with
       endpoint := some addr,
       lastHandshake := some now,
       sessions := { past := p.sessions.current, current := some s, next := none } },
   response, newIndex)

/-- Modelled from the spec: `Peer::process_incoming_handshake_response`
— §4.3 initiator inbound steps 1–2: the packet's `receiver_index`
(bytes 8..12) must resolve to the session in the *next* slot (the slot
must be occupied and its our-index must equal the receiver index);
then complete Noise, set `their_index = sender_index`, and ratchet,
returning the index of the dropped *previous* session. -/
def Peer.process_incoming_handshake_response (env : Env) (now : Nat) (p : Peer)
    (packet : List Nat) : Option (Peer × Option Nat) :=
  match readU32le packet 8 with
  | none => none
  | some receiverIndex =>
    match p.sessions.next with
    | none => none
    | some s =>
      if s.ourIndex = receiverIndex then
        if env.noiseRespOk packet then
          match readU32le packet 4 with
          | none => none
          | some senderIndex =>
            let s' := { s with theirIndex := senderIndex, established := true }
            some ({ p with
                      sessions := { past := p.sessions.current, current := some s', next := none },
                      lastHandshake := some now },
                  p.sessions.past.map (fun d => d.ourIndex))
        else none
      else none

/-- Modelled from the spec: `Peer::handle_incoming_transport` — §4.4
Decrypt: resolve the session by our-index among the three slots,
decrypt with the AEAD, add to `rx_bytes`, record the receive time; a
successful decryption on a non-*current* session ratchets that session
into *current* and reports `Some(dead_index)` as the transition. -/
def Peer.handle_incoming_transport (env : Env) (now : Nat) (p : Peer) (packet : List Nat) :
    Option (Peer × List Nat × Option (Option Nat)) :=
  match readU32le packet 4, readU64le packet 8 with
  | some ourIndex, some counter =>
    match p.find_session ourIndex with
    | none => none
    | some (s, sType) =>
      match env.aeadOpen counter (packet.drop 16) with
      | none => none
      | some plaintext =>
        let s' := { s with lastRecv := some now }
        match sType with
        | SessionType.Current =>
          some ({ p with
                    sessions := { p.sessions with current := some s' },
                    rxBytes := p.rxBytes + packet.length },
                plaintext, none)
        | SessionType.Next =>
          some ({ p with
                    sessions := { past := p.sessions.current, current := some s', next := none },
                    rxBytes := p.rxBytes + packet.length },
                plaintext, some (p.sessions.past.map (fun d => d.ourIndex)))
        | SessionType.Past =>
          some ({ p with
                    sessions := { past := p.sessions.current, current := some s',
                                  next := p.sessions.next },
                    rxBytes := p.rxBytes + packet.length },
                plaintext, some none)
  | _, _ => none

/-- Modelled from the spec: `Peer::initiate_new_session` — §4.3
initiator step 1: requires a known endpoint; draws a fresh our-index,
installs an unestablished session in *next* (reporting the index of
any abandoned previous *next*), and builds message 1. -/
def Peer.initiate_new_session (env : Env) (p : Peer) :
    Option (Peer × Nat × List Nat × Nat × Option Nat) :=
  match p.endpoint with
  | none => none
  | some ep =>
    let s : Session :=
      { ourIndex := env.freshIndex, theirIndex := 0, established := false,
        lastSent := none, lastRecv := none, sendCounter := 0 }
    some ({ p with sessions := { p.sessions with next := some s } },
          ep, env.mkInit env.freshIndex, env.freshIndex,
          p.sessions.next.map (fun d => d.ourIndex))

/-- The egress flush loop of `handle_ingress_handshake_resp` and
`handle_egress_packet`: pop each queued plaintext, encrypt and send;
an encryption failure propagates (`?`), keeping the datagrams already
sent and leaving the unprocessed remainder queued. -/
def flushQueue (env : Env) (now : Nat) : Peer → List (List Nat) →
    Outcome × Peer × List (Nat × List Nat)
  | p, [] => (Outcome.ok, p, [])
  | p, pkt :: rest =>
    match Peer.handle_outgoing_transport env now p pkt with
    | none => (Outcome.err errEncryptFail, { p with outgoingQueue := rest }, [])
    | some (p', msg) =>
      let r := flushQueue env now p' rest
      (r.1, r.2.1, msg :: r.2.2)

/-- The egress drain loop of `handle_ingress_transport`: encryption
failures are only warned about, the drain continues. -/
def flushQueueWarn (env : Env) (now : Nat) : Peer → List (List Nat) →
    Peer × List (Nat × List Nat)
  | p, [] => (p, [])
  | p, pkt :: rest =>
    match Peer.handle_outgoing_transport env now p pkt with
    | none => flushQueueWarn env now p rest
    | some (p', msg) =>
      let r := flushQueueWarn env now p' rest
      (r.1, msg :: r.2)

/-- `PeerServer::handle_ingress_handshake_init` (peer_server.rs
112–139): length must be exactly 148; mac1 is verified over the first
116 bytes before the Noise responder runs; an unknown remote static
key drops the packet; on success the new session's index is registered
and the response datagram goes back to the packet's source address. -/
def handle_ingress_handshake_init (env : Env) (now : Nat) (st : State)
    (addr : Nat) (packet : List Nat) : Outcome × State × Effects :=
  if packet.length ≠ 148 then (Outcome.err errInitLen, st, Effects.empty)
  else
    match st.interfaceInfo.pubKey with
    | none => (Outcome.err errNoPubKey, st, Effects.empty)
    | some pubkey =>
      if !env.macValid pubkey (packet.take 116) ((packet.drop 116).take 16) then
        (Outcome.err errBadMac1, st, Effects.empty)
      else
        match st.interfaceInfo.privateKey with
        | none => (Outcome.err errNoPrivateKey, st, Effects.empty)
        | some sk =>
          match env.noiseInit sk packet with
          | none => (Outcome.err errNoiseFail, st, Effects.empty)
          | some theirPubkey =>
            match alistGet st.pubkeyMap theirPubkey with
            | none => (Outcome.err errUnknownPubkey, st, Effects.empty)
            | some pid =>
              match st.getPeer pid with
              | none => (Outcome.err errUnknownPubkey, st, Effects.empty)
              | some peer =>
                match readU32le packet 4 with
                | none => (Outcome.oob, st, Effects.empty)
                | some senderIndex =>
                  let r := peer.complete_incoming_handshake now addr senderIndex
                             env.freshIndex (env.mkResponse env.freshIndex)
                  let st1 := { st.setPeer pid r.1 with
                                 indexMap := alistInsert st.indexMap r.2.2 pid }
                  (Outcome.ok, st1, ⟨[(addr, r.2.1)], [], []⟩)

/-- The timers spawned at the end of a successful
`handle_ingress_handshake_resp`. -/
def respTimers (pid ourIndex : Nat) (keepAliveInterval : Option Nat) : List (Nat × TimerMsg) :=
  [(KEEPALIVE_TIMEOUT, TimerMsg.PassiveKeepAlive pid ourIndex),
   (REJECT_AFTER_TIME, TimerMsg.Reject pid ourIndex)] ++
  (match keepAliveInterval with
   | some i => [(i * 1000, TimerMsg.PersistentKeepAlive pid ourIndex)]
   | none => [])

/-- The tail of `handle_ingress_handshake_resp` (peer_server.rs
162–189) after Noise processing, on the already-ratcheted peer: when
ready for transport, flush the egress queue (an error keeps the
datagrams already spawned and skips the timers), or send a single
keepalive when the queue is empty; then schedule the post-handshake
timers. -/
def respFinish (env : Env) (now : Nat) (st1 : State) (pid ourIndex : Nat) (peer1 : Peer) :
    Outcome × State × Effects :=
  if peer1.ready_for_transport then
    if peer1.outgoingQueue ≠ [] then
      match flushQueue env now { peer1 with outgoingQueue := [] } peer1.outgoingQueue with
      | (Outcome.ok, p2, msgs) =>
        (Outcome.ok, st1.setPeer pid p2,
         ⟨msgs, [], respTimers pid ourIndex peer1.info.keepAliveInterval⟩)
      | (e, p2, msgs) => (e, st1.setPeer pid p2, ⟨msgs, [], []⟩)
    else
      match Peer.handle_outgoing_transport env now peer1 [] with
      | none => (Outcome.err errEncryptFail, st1.setPeer pid peer1, Effects.empty)
      | some (peer2, msg) =>
        (Outcome.ok, st1.setPeer pid peer2,
         ⟨[msg], [], respTimers pid ourIndex peer1.info.keepAliveInterval⟩)
  else
    (Outcome.ok, st1.setPeer pid peer1,
     ⟨[], [], respTimers pid ourIndex peer1.info.keepAliveInterval⟩)

/-- `PeerServer::handle_ingress_handshake_resp` (peer_server.rs
142–190): length must be exactly 92; mac1 is verified over the first
60 bytes; the receiver index is resolved through the index map; the
source address parameter is ignored (`_addr` in the source); on
readiness the egress queue is flushed, an empty queue sends one
keepalive; finally the passive-keepalive, reject and (if configured)
persistent-keepalive timers are scheduled. -/
def handle_ingress_handshake_resp (env : Env) (now : Nat) (st : State)
    ( _addr : Nat) (packet : List Nat) : Outcome × State × Effects :=
  if packet.length ≠ 92 then (Outcome.err errRespLen, st, Effects.empty)
  else
    match st.interfaceInfo.pubKey with
    | none => (Outcome.err errNoPubKey, st, Effects.empty)
    | some pubkey =>
      if !env.macValid pubkey (packet.take 60) ((packet.drop 60).take 16) then
        (Outcome.err errBadMac1, st, Effects.empty)
      else
        match readU32le packet 8 with
        | none => (Outcome.oob, st, Effects.empty)
        | some ourIndex =>
          match alistGet st.indexMap ourIndex with
          | none => (Outcome.err errUnknownIndex, st, Effects.empty)
          | some pid =>
            match st.getPeer pid with
            | none => (Outcome.err errUnknownIndex, st, Effects.empty)
            | some peer =>
              match Peer.process_incoming_handshake_response env now peer packet with
              | none => (Outcome.err errNoiseFail, st, Effects.empty)
              | some (peer1, deadIndex) =>
                match deadIndex with
                | some d =>
                  respFinish env now { st with indexMap := alistRemove st.indexMap d }
                    pid ourIndex peer1
                | none => respFinish env now st pid ourIndex peer1

/-- `PeerServer::handle_ingress_transport` (peer_server.rs 192–226):
the receiver index is read from bytes 4..8 with no length check and
resolved through the index map; decryption and counter updates happen
in the peer; a slot transition removes the dead index and drains the
egress queue (warning, not failing, on encrypt errors); an empty
plaintext short-circuits as a keepalive; otherwise the inner source is
validated before the plaintext goes to the tunnel. -/
def handle_ingress_transport (env : Env) (now : Nat) (st : State)
    ( _addr : Nat) (packet : List Nat) : Outcome × State × Effects :=
  match readU32le packet 4 with
  | none => (Outcome.oob, st, Effects.empty)
  | some ourIndex =>
    match alistGet st.indexMap ourIndex with
    | none => (Outcome.err errUnknownIndex, st, Effects.empty)
    | some pid =>
      match st.getPeer pid with
      | none => (Outcome.err errUnknownIndex, st, Effects.empty)
      | some peer =>
        match Peer.handle_incoming_transport env now peer packet with
        | none => (Outcome.err errTransportFail, st, Effects.empty)
        | some (peer1, rawPacket, transition) =>
          match
            (match transition with
             | none => (st, peer1, ([] : List (Nat × List Nat)))
             | some deadOpt =>
               match flushQueueWarn env now { peer1 with outgoingQueue := [] }
                       peer1.outgoingQueue with
               | (p2, msgs) =>
                 ((match deadOpt with
                   | some d => { st with indexMap := alistRemove st.indexMap d }
                   | none => st),
                  p2, msgs))
          with
          | (st1, peer2, sends) =>
            if rawPacket = [] then
              (Outcome.ok, st1.setPeer pid peer2, ⟨sends, [], []⟩)
            else if env.validateSource rawPacket pid then
              (Outcome.ok, st1.setPeer pid peer2, ⟨sends, [rawPacket], []⟩)
            else
              (Outcome.err errBadSource, st1.setPeer pid peer2, ⟨sends, [], []⟩)

/-- `PeerServer::send_handshake_init` (peer_server.rs 228–249): builds
a new initiation, registers the fresh index (unregistering an
abandoned *next* index), sends message 1 to the peer endpoint, records
`last_sent_init`, initializes `last_tun_queue` if unset, and schedules
a Rekey timer at `REKEY_TIMEOUT + 2·TIMER_TICK_DURATION`; the last
component of the result is the fresh index on success. -/
def send_handshake_init (env : Env) (now : Nat) (st : State) (pid : Nat) :
    Outcome × State × Effects × Option Nat :=
  match st.interfaceInfo.privateKey with
  | none => (Outcome.err errNoPrivateKey, st, Effects.empty, none)
  | some _ =>
    match st.getPeer pid with
    | none => (Outcome.err errNoPeer, st, Effects.empty, none)
    | some peer =>
      match Peer.initiate_new_session env peer with
      | none => (Outcome.err errNoEndpoint, st, Effects.empty, none)
      | some (peer1, ep, initPacket, newIndex, deadIndex) =>
        let im1 := alistInsert st.indexMap newIndex pid
        let im2 :=
          match deadIndex with
          | some d => alistRemove im1 d
          | none => im1
        let peer2 := { peer1 with
                         lastSentInit := some now,
                         lastTunQueue := some (peer1.lastTunQueue.getD now) }
        let st1 := { st.setPeer pid peer2 with indexMap := im2 }
        (Outcome.ok, st1,
         ⟨[(ep, initPacket)], [],
          [(REKEY_TIMEOUT + TIMER_TICK_DURATION * 2, TimerMsg.Rekey pid newIndex)]⟩,
         some newIndex)

/-- `PeerServer::handle_timer` (peer_server.rs 251–355).  Rekey: a
*next*-slot session too soon after the last init reschedules for the
remaining wait; an exceeded `REKEY_ATTEMPT_TIME` clears
`last_tun_queue` and abandons; otherwise a new initiation is sent.  A
*current*-slot session with a recent handshake reschedules, otherwise
initiates.  A dead index bails.  Reject: the owning slot is cleared
unconditionally and the index is removed from the map.  The keepalive
timers act only on the *current* session. -/
def handle_timer (env : Env) (now : Nat) (st : State) (message : TimerMsg) :
    Outcome × State × Effects :=
  match message with
  | TimerMsg.Rekey pid ourIndex =>
    match st.getPeer pid with
    | none => (Outcome.err errNoPeer, st, Effects.empty)
    | some peer =>
      match peer.find_session ourIndex with
      | some (_, SessionType.Next) =>
        let tooSoon : Option Nat :=
          match peer.lastSentInit with
          | some t =>
            if now - t < REKEY_TIMEOUT then
              some (REKEY_TIMEOUT - (now - t) + TIMER_TICK_DURATION * 2)
            else none
          | none => none
        match tooSoon with
        | some wait =>
          (Outcome.err errRekeySoon, st, ⟨[], [], [(wait, TimerMsg.Rekey pid ourIndex)]⟩)
        | none =>
          let abandoned : Bool :=
            match peer.lastTunQueue with
            | some q => decide (now - q > REKEY_ATTEMPT_TIME)
            | none => false
          if abandoned then
            (Outcome.err errRekeyAttempts,
             st.setPeer pid { peer with lastTunQueue := none }, Effects.empty)
          else
            let r := send_handshake_init env now st pid
            (r.1, r.2.1, r.2.2.1)
      | some (_, SessionType.Current) =>
        let recent : Option Nat :=
          match peer.lastHandshake with
          | some lh =>
            if now - lh ≤ REKEY_AFTER_TIME then
              some (REKEY_AFTER_TIME - (now - lh) + TIMER_TICK_DURATION * 2)
            else none
          | none => none
        match recent with
        | some wait =>
          (Outcome.err errRekeyRecent, st, ⟨[], [], [(wait, TimerMsg.Rekey pid ourIndex)]⟩)
        | none =>
          let r := send_handshake_init env now st pid
          (r.1, r.2.1, r.2.2.1)
      | _ => (Outcome.err errDeadSession, st, Effects.empty)
  | TimerMsg.Reject pid ourIndex =>
    let st1 :=
      match st.getPeer pid with
      | none => st
      | some peer =>
        match peer.find_session ourIndex with
        | some (_, SessionType.Next) =>
          st.setPeer pid { peer with sessions := { peer.sessions with next := none } }
        | some (_, SessionType.Current) =>
          st.setPeer pid { peer with sessions := { peer.sessions with current := none } }
        | some (_, SessionType.Past) =>
          st.setPeer pid { peer with sessions := { peer.sessions with past := none } }
        | none => st
    (Outcome.ok, { st1 with indexMap := alistRemove st1.indexMap ourIndex }, Effects.empty)
  | TimerMsg.PassiveKeepAlive pid ourIndex =>
    match st.getPeer pid with
    | none => (Outcome.err errMissingSession, st, Effects.empty)
    | some peer =>
      match peer.find_session ourIndex with
      | none => (Outcome.err errMissingSession, st, Effects.empty)
      | some (session, sType) =>
        if sType ≠ SessionType.Current then
          (Outcome.err errExpiredPassive, st, Effects.empty)
        else
          let waiting : Option Nat :=
            match session.lastSent with
            | some ls =>
              if now - ls < KEEPALIVE_TIMEOUT then
                some (KEEPALIVE_TIMEOUT - (now - ls) + TIMER_TICK_DURATION)
              else none
            | none => none
          match waiting with
          | some wait =>
            (Outcome.err errKeepaliveTick, st,
             ⟨[], [], [(wait, TimerMsg.PassiveKeepAlive pid ourIndex)]⟩)
          | none =>
            match Peer.handle_outgoing_transport env now peer [] with
            | none => (Outcome.err errEncryptFail, st, Effects.empty)
            | some (peer1, msg) =>
              (Outcome.ok, st.setPeer pid peer1,
               ⟨[msg], [], [(KEEPALIVE_TIMEOUT, TimerMsg.PassiveKeepAlive pid ourIndex)]⟩)
  | TimerMsg.PersistentKeepAlive pid ourIndex =>
    match st.getPeer pid with
    | none => (Outcome.err errMissingSession, st, Effects.empty)
    | some peer =>
      match peer.find_session ourIndex with
      | none => (Outcome.err errMissingSession, st, Effects.empty)
      | some (_, sType) =>
        if sType ≠ SessionType.Current then
          (Outcome.err errExpiredPersistent, st, Effects.empty)
        else
          match Peer.handle_outgoing_transport env now peer [] with
          | none => (Outcome.err errEncryptFail, st, Effects.empty)
          | some (peer1, msg) =>
            let timers :=
              match peer.info.keepAliveInterval with
              | some i => [(i * 1000, TimerMsg.PersistentKeepAlive pid ourIndex)]
              | none => []
            (Outcome.ok, st.setPeer pid peer1, ⟨[msg], [], timers⟩)

/-- `PeerServer::handle_egress_packet` (peer_server.rs 357–385): the
payload must be non-empty and at most `MAX_CONTENT_SIZE`; the
destination is routed to a peer (dropping with a no-route error on a
miss); the packet is queued, the queue flushed if the peer is ready,
and a handshake initiation is triggered when the peer needs one. -/
def handle_egress_packet (env : Env) (now : Nat) (st : State) (packet : List Nat) :
    Outcome × State × Effects :=
  if packet.length = 0 ∨ packet.length > MAX_CONTENT_SIZE then
    (Outcome.err errSizeBounds, st, Effects.empty)
  else
    match env.route packet with
    | none => (Outcome.err errNoRoute, st, Effects.empty)
    | some pid =>
      match st.getPeer pid with
      | none => (Outcome.err errNoRoute, st, Effects.empty)
      | some peer =>
        let peer1 := { peer with outgoingQueue := peer.outgoingQueue ++ [packet] }
        if peer1.ready_for_transport then
          match flushQueue env now { peer1 with outgoingQueue := [] } peer1.outgoingQueue with
          | (Outcome.ok, p2, msgs) =>
            if p2.needs_new_handshake then
              match send_handshake_init env now (st.setPeer pid p2) pid with
              | (o, st2, effs, _) => (o, st2, Effects.append ⟨msgs, [], []⟩ effs)
            else (Outcome.ok, st.setPeer pid p2, ⟨msgs, [], []⟩)
          | (e, p2, msgs) => (e, st.setPeer pid p2, ⟨msgs, [], []⟩)
        else
          if peer1.needs_new_handshake then
            match send_handshake_init env now (st.setPeer pid peer1) pid with
            | (o, st2, effs, _) => (o, st2, effs)
          else (Outcome.ok, st.setPeer pid peer1, Effects.empty)

/-- `PeerServer::handle_ingress_packet` (peer_server.rs 101–110):
dispatch on the first byte, which is read unconditionally (an empty
datagram is an out-of-bounds access). -/
def handle_ingress_packet (env : Env) (now : Nat) (st : State)
    (addr : Nat) (packet : List Nat) : Outcome × State × Effects :=
  match packet.get? 0 with
  | none => (Outcome.oob, st, Effects.empty)
  | some 1 => handle_ingress_handshake_init env now st addr packet
  | some 2 => handle_ingress_handshake_resp env now st addr packet
  | some 3 => (Outcome.err errCookie, st, Effects.empty)
  | some 4 => handle_ingress_transport env now st addr packet
  | some _ => (Outcome.err errUnknownType, st, Effects.empty)

/-- Result of one `PeerServer::poll` wake-up: would-block
(`Async::NotReady`), resolution of the future with `Err(())`
(stream/channel closure), or a Rust panic inside a handler
(out-of-bounds slice access). -/
inductive PollResult where
  | notReady
  | terminated
  | crashed
  deriving DecidableEq

/-- The timer drain loop of `PeerServer::poll` (peer_server.rs
394–402): each pending timer message is handled, handler errors are
logged and discarded. -/
def runTimers (env : Env) (now : Nat) : State → Effects → List TimerMsg → State × Effects
  | st, acc, [] => (st, acc)
  | st, acc, m :: rest =>
    let r := handle_timer env now st m
    runTimers env now r.2.1 (acc.append r.2.2) rest

/-- The UDP drain loop of `PeerServer::poll` (peer_server.rs 405–413):
each datagram is handled, handler errors are logged and discarded; an
out-of-bounds access is a panic and stops the drain. -/
def runUdp (env : Env) (now : Nat) : State → Effects → List (Nat × List Nat) →
    Bool × State × Effects
  | st, acc, [] => (false, st, acc)
  | st, acc, (addr, pkt) :: rest =>
    match handle_ingress_packet env now st addr pkt with
    | (Outcome.oob, _, _) => (true, st, acc)
    | (_, st', effs) => runUdp env now st' (acc.append effs) rest

/-- The tunnel drain loop of `PeerServer::poll` (peer_server.rs
416–424): each egress packet is handled, handler errors are logged and
discarded. -/
def runEgress (env : Env) (now : Nat) : State → Effects → List (List Nat) → State × Effects
  | st, acc, [] => (st, acc)
  | st, acc, pkt :: rest =>
    let r := handle_egress_packet env now st pkt
    runEgress env now r.2.1 (acc.append r.2.2) rest

/-- One wake-up of `PeerServer::poll` (peer_server.rs 392–427).  Each
of the three sources is drained in order — timers, inbound UDP, egress
tunnel packets — where a source is a batch of ready items followed by
either would-block (`closed = false`) or stream closure
(`closed = true`, `Async::Ready(None)` or `Err`, which resolves the
future with `Err(())`). -/
def poll (env : Env) (now : Nat) (st : State)
    (timerItems : List TimerMsg) (timerClosed : Bool)
    (udpItems : List (Nat × List Nat)) (udpClosed : Bool)
    (tunItems : List (List Nat)) (tunClosed : Bool) :
    PollResult × State × Effects :=
  let r1 := runTimers env now st Effects.empty timerItems
  if timerClosed then (PollResult.terminated, r1.1, r1.2)
  else
    let r2 := runUdp env now r1.1 r1.2 udpItems
    if r2.1 then (PollResult.crashed, r2.2.1, r2.2.2)
    else if udpClosed then (PollResult.terminated, r2.2.1, r2.2.2)
    else
      let r3 := runEgress env now r2.2.1 r2.2.2 tunItems
      if tunClosed then (PollResult.terminated, r3.1, r3.2)
      else (PollResult.notReady, r3.1, r3.2)

/-- Written from the spec's words for §4.3 step 3 / §4.4 Encrypt, to
compare the flush loop against: each queued plaintext in FIFO order
becomes one type-4 datagram to the endpoint, encrypted at successive
send-counter values. -/
def encryptSeq (env : Env) (ep theirIdx : Nat) : Nat → List (List Nat) → List (Nat × List Nat)
  | _, [] => []
  | c, pkt :: rest =>
    (ep, transportHeader theirIdx c ++ env.aeadSeal c pkt) :: encryptSeq env ep theirIdx (c + 1) rest

/-- A concrete oracle environment for witnesses: every check passes,
decryption yields the ciphertext unchanged, no route matches. -/
def envT : Env :=
  { macValid := fun _ _ _ => true
    noiseInit := fun _ _ => some 7
    noiseRespOk := fun _ => true
    freshIndex := 42
    mkResponse := fun i => [2, i % 256]
    mkInit := fun i => [1, i % 256]
    aeadSeal := fun _ pt => pt ++ List.replicate 16 0
    aeadOpen := fun _ ct => some ct
    route := fun _ => none
    validateSource := fun _ _ => true }

/-- A variant environment whose mac1 verification always fails. -/
def envF : Env := { envT with macValid := fun _ _ _ => false }

/-- A variant environment whose AEAD decryption always yields an empty
plaintext (a keepalive). -/
def envK : Env := { envT with aeadOpen := fun _ _ => some [] }

/-- A concrete established current session with our-index 5. -/
def sessA : Session :=
  { ourIndex := 5, theirIndex := 9, established := true,
    lastSent := none, lastRecv := none, sendCounter := 0 }

/-- A concrete peer holding `sessA` as its current session. -/
def peerA : Peer :=
  { info := { pubkey := 7, keepAliveInterval := none }
    sessions := { past := none, current := some sessA, next := none }
    endpoint := some 77
    outgoingQueue := []
    lastSentInit := none
    lastTunQueue := none
    lastHandshake := none
    txBytes := 0
    rxBytes := 0 }

/-- A concrete server state owning `peerA` under handle 0, with index
5 registered. -/
def stA : State :=
  { interfaceInfo := { privateKey := some 3, pubKey := some 4 }
    peers := [peerA]
    pubkeyMap := [(7, 0)]
    indexMap := [(5, 0)] }

/-- A concrete unestablished next-slot session with our-index 6. -/
def sessN : Session :=
  { ourIndex := 6, theirIndex := 0, established := false,
    lastSent := none, lastRecv := none, sendCounter := 0 }

/-- A concrete peer with a pending initiation in the next slot. -/
def peerN : Peer :=
  { peerA with
      sessions := { past := none, current := none, next := some sessN },
      lastSentInit := some 0 }

/-- A concrete server state owning `peerN` under handle 0, with index
6 registered. -/
def stN : State := { stA with peers := [peerN], indexMap := [(6, 0)] }

/-- A concrete 20-byte type-4 datagram addressed to session index 5. -/
def pktShort4 : List Nat := [4, 0, 0, 0, 5, 0, 0, 0] ++ List.replicate 12 0

/-- A concrete 148-byte type-1 datagram. -/
def pktInit : List Nat := 1 :: List.replicate 147 0

/-- A concrete 92-byte type-2 datagram addressed to session index 6
(bytes 8..12 hold the receiver index). -/
def pktResp : List Nat := [2, 0, 0, 0, 0, 0, 0, 0, 6, 0, 0, 0] ++ List.replicate 80 0

theorem readU32le_eq_none_of_short (p : List Nat) (off : Nat) (h : p.length < off + 4) :
    readU32le p off = none := by
  have h3 : p.get? (off + 3) = none := List.get?_eq_none.mpr (by omega)
  unfold readU32le
  rw [h3]
  rcases p.get? off with _ | b0 <;>
    rcases p.get? (off + 1) with _ | b1 <;>
      rcases p.get? (off + 2) with _ | b2 <;> rfl

theorem readU32le_isSome_of_len (p : List Nat) (off : Nat) (h : off + 4 ≤ p.length) :
    ∃ v, readU32le p off = some v := by
  rcases h0 : p.get? off with _ | b0
  · rw [List.get?_eq_none] at h0; omega
  rcases h1 : p.get? (off + 1) with _ | b1
  · rw [List.get?_eq_none] at h1; omega
  rcases h2 : p.get? (off + 2) with _ | b2
  · rw [List.get?_eq_none] at h2; omega
  rcases h3 : p.get? (off + 3) with _ | b3
  · rw [List.get?_eq_none] at h3; omega
  exact ⟨_, by unfold readU32le; rw [h0, h1, h2, h3]⟩

theorem alistGet_alistRemove_self (m : List (Nat × Nat)) (k : Nat) :
    alistGet (alistRemove m k) k = none := by
  induction m with
  | nil => rfl
  | cons kv rest ih =>
    by_cases h : kv.1 = k
    · simpa [alistRemove, List.filter_cons, h] using ih
    · simpa [alistRemove, List.filter_cons, h, alistGet] using ih

theorem map_endpoint_set (l : List Peer) (i : Nat) (p q : Peer)
    (hp : l.get? i = some p) (hq : q.endpoint = p.endpoint) :
    (l.set i q).map Peer.endpoint = l.map Peer.endpoint := by
  induction l generalizing i with
  | nil => simp at hp
  | cons a rest ih =>
    cases i with
    | zero =>
      simp only [List.get?] at hp
      cases hp
      simp [List.set, hq]
    | succ n =>
      simp only [List.get?] at hp
      simp [List.set, ih n hp]

/-- C9: inbound datagram processing is not length-guarded at dispatch —
`handle_ingress_packet` reads byte 0 unconditionally, so an empty
datagram is an out-of-bounds access, and for a type-4 datagram shorter
than 8 bytes the unconditional read of bytes 4..8 in
`handle_ingress_transport` is an out-of-bounds access rather than a
malformed-packet error. -/
theorem C9_no_length_guard_oob :
    (∀ env now st addr,
      handle_ingress_packet env now st addr [] = (Outcome.oob, st, Effects.empty)) ∧
    (∀ env now st addr (packet : List Nat),
      packet.head? = some 4 → packet.length < 8 →
      handle_ingress_packet env now st addr packet = (Outcome.oob, st, Effects.empty)) := by
  constructor
  · intro env now st addr; rfl
  · intro env now st addr packet h4 hlen
    have h0 : packet.get? 0 = some 4 := by
      rw [List.get?_zero]; exact h4
    unfold handle_ingress_packet
    rw [h0]
    unfold handle_ingress_transport
    rw [readU32le_eq_none_of_short packet 4 (by omega)]

/-- Witness for C9 at a concrete 3-byte type-4 datagram. -/
theorem C9_no_length_guard_oob_witness :
    handle_ingress_packet envT 0 stA 0 [4, 0, 0] = (Outcome.oob, stA, Effects.empty) :=
  C9_no_length_guard_oob.2 envT 0 stA 0 [4, 0, 0] rfl (by decide)

/-- C6: an egress tunnel packet within size bounds whose destination
matches no allowed-IP route is dropped with the no-route error, with
no UDP send, no tunnel send, no timer scheduled, and the state (hence
every egress queue) unchanged. -/
theorem C6_route_miss_drops (env : Env) (now : Nat) (st : State) (packet : List Nat)
    (hlen1 : 1 ≤ packet.length) (hlen2 : packet.length ≤ MAX_CONTENT_SIZE)
    (hroute : env.route packet = none) :
    handle_egress_packet env now st packet = (Outcome.err errNoRoute, st, Effects.empty) := by
  unfold handle_egress_packet
  rw [if_neg (by push_neg; omega), hroute]

/-- Witness for C6 at a concrete one-byte packet and the route-less
test environment. -/
theorem C6_route_miss_drops_witness :
    handle_egress_packet envT 0 stA [9] = (Outcome.err errNoRoute, stA, Effects.empty) :=
  C6_route_miss_drops envT 0 stA [9] (by decide) (by decide) rfl

/-- C1 (amended): type-1 initiations are processed only at exactly 148
bytes and type-2 responses only at exactly 92 bytes, a failing
datagram being dropped with an error and no state change or effect;
type-4 data packets, however, carry no length validation of their own:
they are dispatched unchanged to transport processing (no 32-byte
minimum is enforced at the framing layer), and a type-4 datagram
shorter than 8 bytes is not dropped with an error at all — it causes
an out-of-bounds slice access. -/
theorem C1_length_validation :
    (∀ env now st addr (packet : List Nat), packet.length ≠ 148 →
      handle_ingress_handshake_init env now st addr packet =
        (Outcome.err errInitLen, st, Effects.empty)) ∧
    (∀ env now st addr (packet : List Nat), packet.length ≠ 92 →
      handle_ingress_handshake_resp env now st addr packet =
        (Outcome.err errRespLen, st, Effects.empty)) ∧
    (∀ env now st addr (packet : List Nat), packet.head? = some 4 →
      handle_ingress_packet env now st addr packet =
        handle_ingress_transport env now st addr packet) ∧
    (∀ env now st addr (packet : List Nat), packet.head? = some 4 →
      packet.length < 8 →
      handle_ingress_packet env now st addr packet =
        (Outcome.oob, st, Effects.empty)) := by
  refine ⟨?_, ?_, ?_, ?_⟩
  · intro env now st addr packet h
    unfold handle_ingress_handshake_init
    rw [if_pos h]
  · intro env now st addr packet h
    unfold handle_ingress_handshake_resp
    rw [if_pos h]
  · intro env now st addr packet h4
    have h0 : packet.get? 0 = some 4 := by rw [List.get?_zero]; exact h4
    unfold handle_ingress_packet
    rw [h0]
  · intro env now st addr packet h4 hlen
    have h0 : packet.get? 0 = some 4 := by rw [List.get?_zero]; exact h4
    unfold handle_ingress_packet
    rw [h0]
    unfold handle_ingress_transport
    rw [readU32le_eq_none_of_short packet 4 (by omega)]

/-- Witness for C1 at a concrete one-byte type-1 datagram. -/
theorem C1_length_validation_witness :
    handle_ingress_handshake_init envT 0 stA 0 [1] =
      (Outcome.err errInitLen, stA, Effects.empty) :=
  C1_length_validation.1 envT 0 stA 0 [1] (by decide)

/-- Counterexample for C1 as stated: the claim requires every type-4
datagram shorter than 32 bytes to be dropped with an error and cause
no state change, but this concrete 7-byte type-4 datagram is not
dropped with an error — its processing performs an out-of-bounds slice
access (the `oob` outcome, a panic rather than an `Err` return). -/
theorem C1_counterexample :
    ([4, 0, 0, 0, 0, 0, 0] : List Nat).length < 32 ∧
    handle_ingress_packet envT 0 stA 0 [4, 0, 0, 0, 0, 0, 0] =
      (Outcome.oob, stA, Effects.empty) := by
  constructor
  · decide
  · decide

/-- C4: on every inbound handshake message, mac1 is verified over the
message prefix under the local public key before any Noise processing
or state mutation — with a failing mac1 the handler returns an error
with the state unchanged and no effect whatsoever, for every possible
behaviour of the Noise engine (the environment is universally
quantified); and such a drop leaves the server loop returning
not-ready rather than terminating. -/
theorem C4_mac1_verified_first (env : Env) (now : Nat) (st : State) (addr : Nat)
    (packet : List Nat) (pk : Nat) (hpk : st.interfaceInfo.pubKey = some pk) :
    (packet.length = 148 →
      env.macValid pk (packet.take 116) ((packet.drop 116).take 16) = false →
      handle_ingress_handshake_init env now st addr packet =
        (Outcome.err errBadMac1, st, Effects.empty)) ∧
    (packet.length = 92 →
      env.macValid pk (packet.take 60) ((packet.drop 60).take 16) = false →
      handle_ingress_handshake_resp env now st addr packet =
        (Outcome.err errBadMac1, st, Effects.empty)) ∧
    (packet.head? = some 1 → packet.length = 148 →
      env.macValid pk (packet.take 116) ((packet.drop 116).take 16) = false →
      (poll env now st [] false [(addr, packet)] false [] false).1 = PollResult.notReady) := by
  have initCase : packet.length = 148 →
      env.macValid pk (packet.take 116) ((packet.drop 116).take 16) = false →
      handle_ingress_handshake_init env now st addr packet =
        (Outcome.err errBadMac1, st, Effects.empty) := by
    intro hlen hmac
    unfold handle_ingress_handshake_init
    rw [if_neg (by omega), hpk]
    simp [hmac]
  refine ⟨initCase, ?_, ?_⟩
  · intro hlen hmac
    unfold handle_ingress_handshake_resp
    rw [if_neg (by omega), hpk]
    simp [hmac]
  · intro h1 hlen hmac
    have h0 : packet.get? 0 = some 1 := by rw [List.get?_zero]; exact h1
    have hdisp : handle_ingress_packet env now st addr packet =
        (Outcome.err errBadMac1, st, Effects.empty) := by
      unfold handle_ingress_packet
      rw [h0]
      exact initCase hlen hmac
    unfold poll runTimers
    simp [hdisp, runUdp, runEgress]

/-- Witness for C4 at a concrete 148-byte initiation under the
failing-mac environment. -/
theorem C4_mac1_verified_first_witness :
    handle_ingress_handshake_init envF 0 stA 0 pktInit =
      (Outcome.err errBadMac1, stA, Effects.empty) :=
  (C4_mac1_verified_first envF 0 stA 0 pktInit 4 rfl).1 (by simp [pktInit]) rfl

theorem handle_outgoing_endpoint (env : Env) (now : Nat) (p : Peer) (payload : List Nat)
    (q : Peer) (m : Nat × List Nat)
    (h : Peer.handle_outgoing_transport env now p payload = some (q, m)) :
    q.endpoint = p.endpoint := by
  unfold Peer.handle_outgoing_transport at h
  rcases hc : p.sessions.current with _ | s
  · rcases he : p.endpoint with _ | ep <;> simp [hc, he] at h
  · rcases he : p.endpoint with _ | ep
    · simp [hc, he] at h
    · simp only [hc, he] at h
      cases hest : s.established
      · simp [hest] at h
      · simp [hest] at h
        obtain ⟨h1, -⟩ := h
        subst h1
        rfl

theorem flushQueue_endpoint (env : Env) (now : Nat) (pkts : List (List Nat)) :
    ∀ p : Peer, ((flushQueue env now p pkts).2.1).endpoint = p.endpoint := by
  induction pkts with
  | nil => intro p; rfl
  | cons pkt rest ih =>
    intro p
    unfold flushQueue
    rcases hh : Peer.handle_outgoing_transport env now p pkt with _ | pm
    · rfl
    · obtain ⟨p', m⟩ := pm
      have hpe := handle_outgoing_endpoint env now p pkt p' m hh
      simpa [hpe] using ih p'

theorem process_resp_endpoint (env : Env) (now : Nat) (p : Peer) (packet : List Nat)
    (q : Peer) (d : Option Nat)
    (h : Peer.process_incoming_handshake_response env now p packet = some (q, d)) :
    q.endpoint = p.endpoint := by
  unfold Peer.process_incoming_handshake_response at h
  rcases hr8 : readU32le packet 8 with _ | ri <;> simp only [hr8] at h
  · exact Option.noConfusion h
  rcases hn : p.sessions.next with _ | s <;> simp only [hn] at h
  · exact Option.noConfusion h
  by_cases hown : s.ourIndex = ri
  · rw [if_pos hown] at h
    cases ho : env.noiseRespOk packet
    · simp [ho] at h
    · simp only [ho, if_true] at h
      rcases hr : readU32le packet 4 with _ | si <;> simp only [hr] at h
      · exact Option.noConfusion h
      · simp at h
        obtain ⟨h1, -⟩ := h
        subst h1
        rfl
  · rw [if_neg hown] at h
    exact Option.noConfusion h

theorem map_endpoint_setPeer (st st2 : State) (pid : Nat) (peer q : Peer)
    (hpeers : st2.peers = st.peers)
    (hp : st.getPeer pid = some peer) (hq : q.endpoint = peer.endpoint) :
    (st2.setPeer pid q).peers.map Peer.endpoint = st.peers.map Peer.endpoint := by
  simp only [State.setPeer, hpeers]
  exact map_endpoint_set st.peers pid peer q hp hq

theorem respFinish_map_endpoint (env : Env) (now : Nat) (st1 st : State)
    (pid ourIndex : Nat) (peer1 peer : Peer)
    (hpeers : st1.peers = st.peers)
    (hp : st.getPeer pid = some peer) (hep1 : peer1.endpoint = peer.endpoint) :
    (respFinish env now st1 pid ourIndex peer1).2.1.peers.map Peer.endpoint =
      st.peers.map Peer.endpoint := by
  unfold respFinish
  split
  · split
    · split
      next p2 msgs heq =>
        refine map_endpoint_setPeer st st1 pid peer p2 hpeers hp ?_
        have hfl := flushQueue_endpoint env now peer1.outgoingQueue
                      { peer1 with outgoingQueue := [] }
        rw [heq] at hfl
        exact hfl.trans hep1
      next e p2 msgs hne heq =>
        refine map_endpoint_setPeer st st1 pid peer p2 hpeers hp ?_
        have hfl := flushQueue_endpoint env now peer1.outgoingQueue
                      { peer1 with outgoingQueue := [] }
        rw [heq] at hfl
        exact hfl.trans hep1
    · split
      · exact map_endpoint_setPeer st st1 pid peer peer1 hpeers hp hep1
      next peer2 msg hout =>
        exact map_endpoint_setPeer st st1 pid peer peer2 hpeers hp
          ((handle_outgoing_endpoint env now peer1 [] peer2 msg hout).trans hep1)
  · exact map_endpoint_setPeer st st1 pid peer peer1 hpeers hp hep1

/-- C10: processing an inbound type-2 handshake response ignores the
datagram's source address entirely — the result is identical for any
two source addresses — and leaves the stored endpoint of every peer
unchanged; so among the inbound handshake handlers only the type-1
responder path (which passes the source into
`complete_incoming_handshake`) can update a peer's endpoint. -/
theorem C10_resp_ignores_source (env : Env) (now : Nat) (st : State)
    (addr addr' : Nat) (packet : List Nat) :
    handle_ingress_handshake_resp env now st addr packet =
      handle_ingress_handshake_resp env now st addr' packet ∧
    (handle_ingress_handshake_resp env now st addr packet).2.1.peers.map Peer.endpoint =
      st.peers.map Peer.endpoint := by
  refine ⟨rfl, ?_⟩
  unfold handle_ingress_handshake_resp
  split
  · rfl
  split
  · rfl
  next pk hpub =>
  split
  · rfl
  next hmac =>
  split
  · rfl
  next ourIndex hv =>
  split
  · rfl
  next pid hm =>
  split
  · rfl
  next peer hp =>
  split
  · rfl
  next peer1 dead hpr =>
  have hep1 : peer1.endpoint = peer.endpoint :=
    process_resp_endpoint env now peer packet peer1 dead hpr
  rcases dead with _ | d
  · exact respFinish_map_endpoint env now st st pid ourIndex peer1 peer rfl hp hep1
  · exact respFinish_map_endpoint env now _ st pid ourIndex peer1 peer rfl hp hep1

/-- C3: on a Reject timer message the session holding the index is
unconditionally cleared from whichever of the three slots holds it
(the peer is untouched if no slot matches), the index is removed from
the index map, no effect is emitted, and a subsequent inbound type-4
packet carrying that receiver index fails with the unknown-index
error. -/
theorem C3_reject_clears_session (env : Env) (now now2 : Nat) (st : State)
    (pid idx : Nat) (peer : Peer) (hp : st.getPeer pid = some peer) :
    (handle_timer env now st (TimerMsg.Reject pid idx)).1 = Outcome.ok ∧
    (handle_timer env now st (TimerMsg.Reject pid idx)).2.2 = Effects.empty ∧
    (handle_timer env now st (TimerMsg.Reject pid idx)).2.1.indexMap =
      alistRemove st.indexMap idx ∧
    alistGet (handle_timer env now st (TimerMsg.Reject pid idx)).2.1.indexMap idx = none ∧
    (handle_timer env now st (TimerMsg.Reject pid idx)).2.1.getPeer pid = some (
      match peer.find_session idx with
      | some (_, SessionType.Next) =>
        { peer with sessions := { peer.sessions with next := none } }
      | some (_, SessionType.Current) =>
        { peer with sessions := { peer.sessions with current := none } }
      | some (_, SessionType.Past) =>
        { peer with sessions := { peer.sessions with past := none } }
      | none => peer) ∧
    (∀ addr packet, readU32le packet 4 = some idx →
      handle_ingress_transport env now2
          (handle_timer env now st (TimerMsg.Reject pid idx)).2.1 addr packet =
        (Outcome.err errUnknownIndex,
         (handle_timer env now st (TimerMsg.Reject pid idx)).2.1, Effects.empty)) := by
  have hlt : pid < st.peers.length := (List.get?_eq_some.mp hp).1
  have hmain : ∀ st2 : State, st2.indexMap = alistRemove st.indexMap idx →
      ∀ addr packet, readU32le packet 4 = some idx →
      handle_ingress_transport env now2 st2 addr packet =
        (Outcome.err errUnknownIndex, st2, Effects.empty) := by
    intro st2 him addr packet hidx
    unfold handle_ingress_transport
    rw [hidx, him]
    simp only [alistGet_alistRemove_self]
  rcases hf : peer.find_session idx with _ | ⟨s, ty⟩
  · have key : handle_timer env now st (TimerMsg.Reject pid idx) =
        (Outcome.ok, { st with indexMap := alistRemove st.indexMap idx },
         Effects.empty) := by
      simp [handle_timer, hp, hf]
    rw [key]
    refine ⟨rfl, rfl, rfl, alistGet_alistRemove_self st.indexMap idx, ?_, hmain _ rfl⟩
    simp only [hf]
    exact hp
  · cases ty
    · have key : handle_timer env now st (TimerMsg.Reject pid idx) =
          (Outcome.ok,
           { st.setPeer pid { peer with sessions := { peer.sessions with past := none } }
               with indexMap := alistRemove st.indexMap idx },
           Effects.empty) := by
        simp [handle_timer, hp, hf, State.setPeer]
      rw [key]
      refine ⟨rfl, rfl, rfl, alistGet_alistRemove_self st.indexMap idx, ?_, hmain _ rfl⟩
      simp only [hf]
      exact List.get?_set_eq_of_lt _ hlt
    · have key : handle_timer env now st (TimerMsg.Reject pid idx) =
          (Outcome.ok,
           { st.setPeer pid { peer with sessions := { peer.sessions with current := none } }
               with indexMap := alistRemove st.indexMap idx },
           Effects.empty) := by
        simp [handle_timer, hp, hf, State.setPeer]
      rw [key]
      refine ⟨rfl, rfl, rfl, alistGet_alistRemove_self st.indexMap idx, ?_, hmain _ rfl⟩
      simp only [hf]
      exact List.get?_set_eq_of_lt _ hlt
    · have key : handle_timer env now st (TimerMsg.Reject pid idx) =
          (Outcome.ok,
           { st.setPeer pid { peer with sessions := { peer.sessions with next := none } }
               with indexMap := alistRemove st.indexMap idx },
           Effects.empty) := by
        simp [handle_timer, hp, hf, State.setPeer]
      rw [key]
      refine ⟨rfl, rfl, rfl, alistGet_alistRemove_self st.indexMap idx, ?_, hmain _ rfl⟩
      simp only [hf]
      exact List.get?_set_eq_of_lt _ hlt

/-- Witness for C3 at the concrete state `stA` (session 5 current):
after the Reject the registry lookup fails and a type-4 datagram for
index 5 is dropped as unknown. -/
theorem C3_reject_clears_session_witness :
    alistGet (handle_timer envT 0 stA (TimerMsg.Reject 0 5)).2.1.indexMap 5 = none ∧
    handle_ingress_transport envT 0 (handle_timer envT 0 stA (TimerMsg.Reject 0 5)).2.1 0
        [4, 0, 0, 0, 5, 0, 0, 0] =
      (Outcome.err errUnknownIndex,
       (handle_timer envT 0 stA (TimerMsg.Reject 0 5)).2.1, Effects.empty) := by
  have h := C3_reject_clears_session envT 0 0 stA 0 5 peerA rfl
  exact ⟨h.2.2.2.1, h.2.2.2.2.2 0 [4, 0, 0, 0, 5, 0, 0, 0] rfl⟩

/-- C2: delivery of a Rekey(peer, our_index) timer message.  If the
index resolves to the *next* slot: (i) within `REKEY_TIMEOUT` of the
last sent initiation, a Rekey is rescheduled for the remaining wait
(plus two ticks) and nothing is sent; (ii) past `REKEY_ATTEMPT_TIME`
since `last_tun_queue`, the handler clears `last_tun_queue` and
neither sends nor reschedules; (iii) otherwise it runs the initiator
path `send_handshake_init`.  If the index resolves to the *current*
slot, it reschedules within `REKEY_AFTER_TIME` of the last handshake
and otherwise initiates.  If it resolves to no slot, the message is
dropped with no effect.  The final conjunct pins the initiator path:
one message-1 datagram to the endpoint plus a fresh Rekey timer. -/
theorem C2_rekey_timer (env : Env) (now : Nat) (st : State) (pid idx : Nat)
    (peer : Peer) (s : Session) (hp : st.getPeer pid = some peer) :
    (∀ t, peer.find_session idx = some (s, SessionType.Next) →
      peer.lastSentInit = some t → now - t < REKEY_TIMEOUT →
      handle_timer env now st (TimerMsg.Rekey pid idx) =
        (Outcome.err errRekeySoon, st,
         ⟨[], [], [(REKEY_TIMEOUT - (now - t) + TIMER_TICK_DURATION * 2,
                    TimerMsg.Rekey pid idx)]⟩)) ∧
    (∀ q, peer.find_session idx = some (s, SessionType.Next) →
      (peer.lastSentInit = none ∨
        ∃ t, peer.lastSentInit = some t ∧ REKEY_TIMEOUT ≤ now - t) →
      peer.lastTunQueue = some q → REKEY_ATTEMPT_TIME < now - q →
      handle_timer env now st (TimerMsg.Rekey pid idx) =
        (Outcome.err errRekeyAttempts,
         st.setPeer pid { peer with lastTunQueue := none }, Effects.empty)) ∧
    (peer.find_session idx = some (s, SessionType.Next) →
      (peer.lastSentInit = none ∨
        ∃ t, peer.lastSentInit = some t ∧ REKEY_TIMEOUT ≤ now - t) →
      (peer.lastTunQueue = none ∨
        ∃ q, peer.lastTunQueue = some q ∧ now - q ≤ REKEY_ATTEMPT_TIME) →
      handle_timer env now st (TimerMsg.Rekey pid idx) =
        ((send_handshake_init env now st pid).1,
         (send_handshake_init env now st pid).2.1,
         (send_handshake_init env now st pid).2.2.1)) ∧
    (∀ lh, peer.find_session idx = some (s, SessionType.Current) →
      peer.lastHandshake = some lh → now - lh ≤ REKEY_AFTER_TIME →
      handle_timer env now st (TimerMsg.Rekey pid idx) =
        (Outcome.err errRekeyRecent, st,
         ⟨[], [], [(REKEY_AFTER_TIME - (now - lh) + TIMER_TICK_DURATION * 2,
                    TimerMsg.Rekey pid idx)]⟩)) ∧
    (peer.find_session idx = some (s, SessionType.Current) →
      (peer.lastHandshake = none ∨
        ∃ lh, peer.lastHandshake = some lh ∧ REKEY_AFTER_TIME < now - lh) →
      handle_timer env now st (TimerMsg.Rekey pid idx) =
        ((send_handshake_init env now st pid).1,
         (send_handshake_init env now st pid).2.1,
         (send_handshake_init env now st pid).2.2.1)) ∧
    (peer.find_session idx = none →
      handle_timer env now st (TimerMsg.Rekey pid idx) =
        (Outcome.err errDeadSession, st, Effects.empty)) ∧
    (∀ ep sk, peer.endpoint = some ep → st.interfaceInfo.privateKey = some sk →
      (send_handshake_init env now st pid).1 = Outcome.ok ∧
      (send_handshake_init env now st pid).2.2.1 =
        ⟨[(ep, env.mkInit env.freshIndex)], [],
         [(REKEY_TIMEOUT + TIMER_TICK_DURATION * 2,
           TimerMsg.Rekey pid env.freshIndex)]⟩) := by
  refine ⟨?_, ?_, ?_, ?_, ?_, ?_, ?_⟩
  · intro t hfind ht hlt
    simp only [handle_timer, hp, hfind, ht, if_pos hlt]
  · intro q hfind hinit htq hgt
    rcases hinit with hnone | ⟨t, ht, hge⟩
    · simp only [handle_timer, hp, hfind, hnone, htq]
      simp [hgt]
    · simp only [handle_timer, hp, hfind, ht, htq, if_neg (by omega : ¬(now - t < REKEY_TIMEOUT))]
      simp [hgt]
  · intro hfind hinit htq
    have habandon : (match peer.lastTunQueue with
        | some q => decide (now - q > REKEY_ATTEMPT_TIME)
        | none => false) = false := by
      rcases htq with hnone | ⟨q, hq, hle⟩
      · simp [hnone]
      · simp [hq]
        omega
    rcases hinit with hnone | ⟨t, ht, hge⟩
    · simp only [handle_timer, hp, hfind, hnone, habandon]
      simp
    · simp only [handle_timer, hp, hfind, ht,
        if_neg (by omega : ¬(now - t < REKEY_TIMEOUT)), habandon]
      simp
  · intro lh hfind hlh hle
    simp only [handle_timer, hp, hfind, hlh, if_pos hle]
  · intro hfind hlh
    rcases hlh with hnone | ⟨lh, hlh, hgt⟩
    · simp only [handle_timer, hp, hfind, hnone]
    · simp only [handle_timer, hp, hfind, hlh,
        if_neg (by omega : ¬(now - lh ≤ REKEY_AFTER_TIME))]
  · intro hfind
    simp [handle_timer, hp, hfind]
  · intro ep sk hep hsk
    unfold send_handshake_init
    rw [hsk]
    simp only [hp]
    unfold Peer.initiate_new_session
    rw [hep]
    cases hnext : peer.sessions.next <;> simp [hnext]

/-- Witness for C2 at the concrete state `stN` (pending next-slot
session 6, init sent at time 0, rekey fired at 1000 ms): branch (i)
reschedules for the remaining 4000 ms plus two ticks. -/
theorem C2_rekey_timer_witness :
    handle_timer envT 1000 stN (TimerMsg.Rekey 0 6) =
      (Outcome.err errRekeySoon, stN,
       ⟨[], [], [(REKEY_TIMEOUT - (1000 - 0) + TIMER_TICK_DURATION * 2,
                  TimerMsg.Rekey 0 6)]⟩) :=
  (C2_rekey_timer envT 1000 stN 0 6 peerN sessN rfl).1 0 (by decide) rfl (by decide)

/-- C7 is stated against `encryptSeq`, the spec-side description of
the flush; these lemmas relate the implementation loop to it. -/
theorem handle_outgoing_ready (env : Env) (now : Nat) (p : Peer) (s : Session)
    (ep : Nat) (payload : List Nat)
    (hc : p.sessions.current = some s) (hest : s.established = true)
    (hep : p.endpoint = some ep) :
    Peer.handle_outgoing_transport env now p payload =
      some ({ p with
                sessions := { p.sessions with
                  current := some { s with sendCounter := s.sendCounter + 1,
                                           lastSent := some now } },
                txBytes := p.txBytes + (transportHeader s.theirIndex s.sendCounter ++
                  env.aeadSeal s.sendCounter payload).length },
            (ep, transportHeader s.theirIndex s.sendCounter ++
              env.aeadSeal s.sendCounter payload)) := by
  unfold Peer.handle_outgoing_transport
  simp only [hc, hep]
  simp [hest]

theorem flushQueue_ready (env : Env) (now : Nat) (pkts : List (List Nat)) :
    ∀ (p : Peer) (s : Session) (ep : Nat),
      p.sessions.current = some s → s.established = true → p.endpoint = some ep →
      ∃ q : Peer, flushQueue env now p pkts =
        (Outcome.ok, q, encryptSeq env ep s.theirIndex s.sendCounter pkts) ∧
        q.outgoingQueue = p.outgoingQueue := by
  induction pkts with
  | nil => intro p s ep hc hest hep; exact ⟨p, rfl, rfl⟩
  | cons pkt rest ih =>
    intro p s ep hc hest hep
    have hout := handle_outgoing_ready env now p s ep pkt hc hest hep
    obtain ⟨q, hq, hqq⟩ := ih
      { p with
          sessions := { p.sessions with
            current := some { s with sendCounter := s.sendCounter + 1,
                                     lastSent := some now } },
          txBytes := p.txBytes + (transportHeader s.theirIndex s.sendCounter ++
            env.aeadSeal s.sendCounter pkt).length }
      { s with sendCounter := s.sendCounter + 1, lastSent := some now } ep rfl hest hep
    refine ⟨q, ?_, hqq⟩
    unfold flushQueue
    simp only [hout]
    rw [hq]
    simp [encryptSeq]

/-- C7: on a valid type-2 handshake response whose receiver index
resolves through the registry to a peer whose pending *next* session
carries exactly that index (spec §4.3 step 1) and whose endpoint is
known, the handler succeeds, the peer's entire egress queue is flushed
in FIFO order —
the UDP sends are exactly `encryptSeq` over the queue, each packet a
type-4 datagram encrypted at successive counters — and if the queue is
empty exactly one empty (keepalive) data packet is sent instead; the
peer's queue is empty afterwards. -/
theorem C7_resp_flushes_queue (env : Env) (now : Nat) (st : State) (addr : Nat)
    (packet : List Nat) (pk idx pid si ep : Nat) (peer : Peer) (s : Session)
    (hlen : packet.length = 92)
    (hpub : st.interfaceInfo.pubKey = some pk)
    (hmac : env.macValid pk (packet.take 60) ((packet.drop 60).take 16) = true)
    (hidx : readU32le packet 8 = some idx)
    (hmap : alistGet st.indexMap idx = some pid)
    (hpeer : st.getPeer pid = some peer)
    (hnext : peer.sessions.next = some s)
    (hown : s.ourIndex = idx)
    (hnoise : env.noiseRespOk packet = true)
    (hsi : readU32le packet 4 = some si)
    (hep : peer.endpoint = some ep) :
    (handle_ingress_handshake_resp env now st addr packet).1 = Outcome.ok ∧
    (handle_ingress_handshake_resp env now st addr packet).2.2.udpSends =
      (if peer.outgoingQueue = [] then
         [(ep, transportHeader si s.sendCounter ++ env.aeadSeal s.sendCounter [])]
       else encryptSeq env ep si s.sendCounter peer.outgoingQueue) ∧
    (∃ p', (handle_ingress_handshake_resp env now st addr packet).2.1.getPeer pid = some p' ∧
       p'.outgoingQueue = []) := by
  have hlt : pid < st.peers.length := (List.get?_eq_some.mp hpeer).1
  set sNew : Session := { s with theirIndex := si, established := true } with hsNew
  set peer1 : Peer := { peer with
      sessions := { past := peer.sessions.current, current := some sNew, next := none },
      lastHandshake := some now } with hpeer1
  have hproc : Peer.process_incoming_handshake_response env now peer packet =
      some (peer1, peer.sessions.past.map (fun d => d.ourIndex)) := by
    unfold Peer.process_incoming_handshake_response
    simp only [hidx, hnext]
    rw [if_pos hown]
    simp only [hnoise, if_true, hsi]
  have hc1 : peer1.sessions.current = some sNew := by rw [hpeer1]
  have hest1 : sNew.established = true := by rw [hsNew]
  have hep1 : peer1.endpoint = some ep := by rw [hpeer1]; exact hep
  have hq1 : peer1.outgoingQueue = peer.outgoingQueue := by rw [hpeer1]
  have hready : peer1.ready_for_transport = true := by
    simp only [Peer.ready_for_transport, hc1, hep1, hep]
  have hmain : ∀ st1 : State, st1.peers = st.peers →
      (respFinish env now st1 pid idx peer1).1 = Outcome.ok ∧
      (respFinish env now st1 pid idx peer1).2.2.udpSends =
        (if peer.outgoingQueue = [] then
           [(ep, transportHeader si s.sendCounter ++ env.aeadSeal s.sendCounter [])]
         else encryptSeq env ep si s.sendCounter peer.outgoingQueue) ∧
      (∃ p', (respFinish env now st1 pid idx peer1).2.1.getPeer pid = some p' ∧
        p'.outgoingQueue = []) := by
    intro st1 hpe
    have hgetset : ∀ x : Peer, (st1.setPeer pid x).getPeer pid = some x := by
      intro x
      simp only [State.setPeer, State.getPeer, hpe]
      exact List.get?_set_eq_of_lt _ hlt
    by_cases hqe : peer.outgoingQueue = []
    · have hout := handle_outgoing_ready env now peer1 sNew ep [] hc1 hest1 hep1
      have hred : respFinish env now st1 pid idx peer1 =
          (Outcome.ok,
           st1.setPeer pid { peer1 with
             sessions := { peer1.sessions with
               current := some { sNew with sendCounter := sNew.sendCounter + 1,
                                           lastSent := some now } },
             txBytes := peer1.txBytes + (transportHeader sNew.theirIndex sNew.sendCounter ++
               env.aeadSeal sNew.sendCounter []).length },
           ⟨[(ep, transportHeader sNew.theirIndex sNew.sendCounter ++
               env.aeadSeal sNew.sendCounter [])], [],
            respTimers pid idx peer1.info.keepAliveInterval⟩) := by
        unfold respFinish
        rw [hready]
        simp only [hq1, hqe, ne_eq, not_true_eq_false, if_false, if_true, hout]
      rw [hred]
      refine ⟨rfl, ?_, ⟨_, hgetset _, ?_⟩⟩
      · simp [hqe, hsNew]
      · have : ({ peer1 with
             sessions := { peer1.sessions with
               current := some { sNew with sendCounter := sNew.sendCounter + 1,
                                           lastSent := some now } },
             txBytes := peer1.txBytes + (transportHeader sNew.theirIndex sNew.sendCounter ++
               env.aeadSeal sNew.sendCounter []).length } : Peer).outgoingQueue =
            peer1.outgoingQueue := rfl
        rw [this, hq1, hqe]
    · obtain ⟨q, hq, hqq⟩ := flushQueue_ready env now peer.outgoingQueue
        { peer1 with outgoingQueue := [] } sNew ep hc1 hest1 hep1
      have hred : respFinish env now st1 pid idx peer1 =
          (Outcome.ok, st1.setPeer pid q,
           ⟨encryptSeq env ep sNew.theirIndex sNew.sendCounter peer.outgoingQueue, [],
            respTimers pid idx peer1.info.keepAliveInterval⟩) := by
        unfold respFinish
        rw [hready]
        simp only [hq1, hqe, ne_eq, not_false_eq_true, if_true, hq]
      rw [hred]
      refine ⟨rfl, ?_, ⟨q, hgetset q, by simpa using hqq⟩⟩
      simp [hqe, hsNew]
  have hred2 : handle_ingress_handshake_resp env now st addr packet =
      (match peer.sessions.past.map (fun d => d.ourIndex) with
       | some d => respFinish env now { st with indexMap := alistRemove st.indexMap d }
                     pid idx peer1
       | none => respFinish env now st pid idx peer1) := by
    unfold handle_ingress_handshake_resp
    rw [if_neg (by omega), hpub]
    simp only [hmac, Bool.not_true, Bool.false_eq_true, if_false]
    simp only [hidx, hmap, hpeer, hproc]
  rcases hpast : peer.sessions.past with _ | d
  · rw [hpast] at hred2
    simp only [Option.map_none'] at hred2
    rw [hred2]
    exact hmain st rfl
  · rw [hpast] at hred2
    simp only [Option.map_some'] at hred2
    rw [hred2]
    exact hmain _ rfl

/-- Witness for C7 at the concrete state `stN` with an empty egress
queue: the handler succeeds and sends exactly one keepalive datagram
to endpoint 77. -/
theorem C7_resp_flushes_queue_witness :
    (handle_ingress_handshake_resp envT 0 stN 0 pktResp).1 = Outcome.ok ∧
    (handle_ingress_handshake_resp envT 0 stN 0 pktResp).2.2.udpSends =
      [(77, transportHeader 0 0 ++ envT.aeadSeal 0 [])] := by
  have h := C7_resp_flushes_queue envT 0 stN 0 pktResp 4 6 0 0 77 peerN sessN
    (by simp [pktResp]) rfl rfl (by decide) rfl rfl rfl rfl rfl (by decide) rfl
  exact ⟨h.1, by simpa [peerN, peerA, sessN] using h.2.1⟩

theorem send_handshake_init_outcome (env : Env) (now : Nat) (st : State) (pid : Nat) :
    (send_handshake_init env now st pid).1 = Outcome.ok ∨
    (send_handshake_init env now st pid).1 = Outcome.err errNoPrivateKey ∨
    (send_handshake_init env now st pid).1 = Outcome.err errNoPeer ∨
    (send_handshake_init env now st pid).1 = Outcome.err errNoEndpoint := by
  unfold send_handshake_init
  rcases hsk : st.interfaceInfo.privateKey with _ | sk
  · simp [hsk]
  rcases hgp : st.getPeer pid with _ | peer
  · simp [hsk, hgp]
  rcases hin : Peer.initiate_new_session env peer with _ | r
  · simp [hsk, hgp, hin]
  · obtain ⟨p1, ep, ip, ni, di⟩ := r
    simp [hsk, hgp, hin]

theorem flushQueue_outcome (env : Env) (now : Nat) (pkts : List (List Nat)) :
    ∀ p : Peer, (flushQueue env now p pkts).1 = Outcome.ok ∨
      (flushQueue env now p pkts).1 = Outcome.err errEncryptFail := by
  induction pkts with
  | nil => intro p; left; rfl
  | cons pkt rest ih =>
    intro p
    unfold flushQueue
    rcases hh : Peer.handle_outgoing_transport env now p pkt with _ | pm
    · right; rfl
    · obtain ⟨p', m⟩ := pm
      simpa using ih p'

/-- C5: an egress tunnel packet is accepted for processing iff its
length lies in [1, MAX_CONTENT_SIZE] — a size-0 or oversized packet is
rejected with the size-bounds error and no other path ever returns
that error; and an inbound type-4 packet decrypting to an empty
plaintext on the current session is a keepalive: the handler succeeds,
`rx_bytes` grows by the datagram length, nothing is forwarded to the
tunnel and no effect is emitted, identically for every possible
source-validation function (no source-IP validation is applied). -/
theorem C5_size_bounds_and_keepalive :
    (∀ (env : Env) (now : Nat) (st : State) (packet : List Nat),
      packet.length = 0 ∨ packet.length > MAX_CONTENT_SIZE →
      handle_egress_packet env now st packet =
        (Outcome.err errSizeBounds, st, Effects.empty)) ∧
    (∀ (env : Env) (now : Nat) (st : State) (packet : List Nat),
      1 ≤ packet.length → packet.length ≤ MAX_CONTENT_SIZE →
      (handle_egress_packet env now st packet).1 ≠ Outcome.err errSizeBounds) ∧
    (∀ (env : Env) (now : Nat) (st : State) (addr : Nat) (packet : List Nat)
       (idx ctr pid : Nat) (peer : Peer) (s : Session),
      readU32le packet 4 = some idx → readU64le packet 8 = some ctr →
      alistGet st.indexMap idx = some pid → st.getPeer pid = some peer →
      peer.find_session idx = some (s, SessionType.Current) →
      env.aeadOpen ctr (packet.drop 16) = some [] →
      (∀ v : List Nat → Nat → Bool,
        handle_ingress_transport { env with validateSource := v } now st addr packet =
          (Outcome.ok,
           st.setPeer pid { peer with
             sessions := { peer.sessions with current := some { s with lastRecv := some now } },
             rxBytes := peer.rxBytes + packet.length },
           ⟨[], [], []⟩))) := by
  refine ⟨?_, ?_, ?_⟩
  · intro env now st packet h
    unfold handle_egress_packet
    rw [if_pos (by omega)]
  · intro env now st packet h1 h2
    unfold handle_egress_packet
    rw [if_neg (by omega)]
    rcases hro : env.route packet with _ | pid
    · simp [hro, errNoRoute, errSizeBounds]
    rcases hgp : st.getPeer pid with _ | peer
    · simp [hro, hgp, errNoRoute, errSizeBounds]
    simp only [hro, hgp]
    split
    · split
      next p2 msgs heq =>
        split
        · rcases hsh : send_handshake_init env now
              (st.setPeer pid p2) pid with ⟨o, st2, effs, ni⟩
          have hsho := send_handshake_init_outcome env now (st.setPeer pid p2) pid
          rw [hsh] at hsho
          simp only at hsho
          simp only [hsh]
          rcases hsho with h | h | h | h <;>
            simp [h, errNoPrivateKey, errNoPeer, errNoEndpoint, errSizeBounds]
        · simp
      next e p2 msgs hne heq =>
        have hfo := flushQueue_outcome env now
          ({ peer with outgoingQueue := peer.outgoingQueue ++ [packet] }).outgoingQueue
          { { peer with outgoingQueue := peer.outgoingQueue ++ [packet] }
              with outgoingQueue := [] }
        rw [heq] at hfo
        simp only at hfo
        rcases hfo with h | h <;> simp [h, errEncryptFail, errSizeBounds]
    · split
      · rcases hsh : send_handshake_init env now
            (st.setPeer pid { peer with outgoingQueue := peer.outgoingQueue ++ [packet] })
            pid with ⟨o, st2, effs, ni⟩
        have hsho := send_handshake_init_outcome env now
          (st.setPeer pid { peer with outgoingQueue := peer.outgoingQueue ++ [packet] }) pid
        rw [hsh] at hsho
        simp only at hsho
        simp only [hsh]
        rcases hsho with h | h | h | h <;>
          simp [h, errNoPrivateKey, errNoPeer, errNoEndpoint, errSizeBounds]
      · simp
  · intro env now st addr packet idx ctr pid peer s hidx hctr hmap hpeer hfind hopen v
    have hproc : ∀ env2 : Env, env2.aeadOpen ctr (packet.drop 16) = some [] →
        Peer.handle_incoming_transport env2 now peer packet =
          some ({ peer with
            sessions := { peer.sessions with current := some { s with lastRecv := some now } },
            rxBytes := peer.rxBytes + packet.length }, [], none) := by
      intro env2 hopen2
      unfold Peer.handle_incoming_transport
      simp only [hidx, hctr, hfind, hopen2]
    unfold handle_ingress_transport
    simp only [hidx, hmap, hpeer, hproc { env with validateSource := v } hopen]
    rfl

/-- Witness for C5: a zero-length egress packet is size-rejected, and
the concrete 20-byte keepalive datagram `pktShort4` is accepted with
counters updated, no tunnel write, under a validation function that
rejects everything. -/
theorem C5_size_bounds_and_keepalive_witness :
    handle_egress_packet envT 0 stA [] = (Outcome.err errSizeBounds, stA, Effects.empty) ∧
    handle_ingress_transport { envK with validateSource := fun _ _ => false } 0 stA 0 pktShort4 =
      (Outcome.ok,
       stA.setPeer 0 { peerA with
         sessions := { peerA.sessions with current := some { sessA with lastRecv := some 0 } },
         rxBytes := peerA.rxBytes + pktShort4.length },
       ⟨[], [], []⟩) := by
  refine ⟨C5_size_bounds_and_keepalive.1 envT 0 stA [] (Or.inl rfl), ?_⟩
  exact C5_size_bounds_and_keepalive.2.2 envK 0 stA 0 pktShort4 5 0 0 peerA sessA
    (by decide) (by decide) rfl rfl (by decide) rfl (fun _ _ => false)

theorem respFinish_no_oob (env : Env) (now : Nat) (st1 : State)
    (pid ourIndex : Nat) (peer1 : Peer) :
    (respFinish env now st1 pid ourIndex peer1).1 ≠ Outcome.oob := by
  unfold respFinish
  split
  · split
    · split
      · simp
      next e p2 msgs hxe heq =>
        have hfo := flushQueue_outcome env now peer1.outgoingQueue
          { peer1 with outgoingQueue := [] }
        rw [heq] at hfo
        simp only at hfo
        rcases hfo with h | h <;> simp [h]
    · split
      · simp
      · simp
  · simp

theorem init_no_oob (env : Env) (now : Nat) (st : State) (addr : Nat) (packet : List Nat) :
    (handle_ingress_handshake_init env now st addr packet).1 ≠ Outcome.oob := by
  unfold handle_ingress_handshake_init
  by_cases hlen : packet.length ≠ 148
  · simp [hlen]
  obtain ⟨v, hv⟩ := readU32le_isSome_of_len packet 4 (by omega)
  rw [if_neg hlen, hv]
  repeat' split
  all_goals simp_all

theorem resp_no_oob (env : Env) (now : Nat) (st : State) (addr : Nat) (packet : List Nat) :
    (handle_ingress_handshake_resp env now st addr packet).1 ≠ Outcome.oob := by
  unfold handle_ingress_handshake_resp
  by_cases hlen : packet.length ≠ 92
  · simp [hlen]
  obtain ⟨v, hv⟩ := readU32le_isSome_of_len packet 8 (by omega)
  rw [if_neg hlen, hv]
  repeat' split
  all_goals try simp_all
  all_goals exact respFinish_no_oob _ _ _ _ _ _

theorem transport_no_oob (env : Env) (now : Nat) (st : State) (addr : Nat)
    (packet : List Nat) (hlen : 8 ≤ packet.length) :
    (handle_ingress_transport env now st addr packet).1 ≠ Outcome.oob := by
  unfold handle_ingress_transport
  obtain ⟨v, hv⟩ := readU32le_isSome_of_len packet 4 (by omega)
  rw [hv]
  repeat' split
  all_goals simp_all

theorem ingress_no_oob (env : Env) (now : Nat) (st : State) (addr : Nat)
    (packet : List Nat) (hne : packet ≠ [])
    (h4 : ¬(packet.head? = some 4 ∧ packet.length < 8)) :
    (handle_ingress_packet env now st addr packet).1 ≠ Outcome.oob := by
  rcases hb : packet.get? 0 with _ | b
  · exact absurd (List.get?_eq_none.mp hb) (by simpa using hne)
  have hhead : packet.head? = some b := by rw [← List.get?_zero]; exact hb
  unfold handle_ingress_packet
  rw [hb]
  split
  all_goals try simp_all
  · exact init_no_oob env now st addr packet
  · exact resp_no_oob env now st addr packet
  · exact transport_no_oob env now st addr packet (by omega)

theorem runUdp_no_crash (env : Env) (now : Nat) :
    ∀ (items : List (Nat × List Nat)) (st : State) (acc : Effects),
      (∀ x ∈ items, x.2 ≠ [] ∧ ¬(x.2.head? = some 4 ∧ x.2.length < 8)) →
      (runUdp env now st acc items).1 = false := by
  intro items
  induction items with
  | nil => intro st acc hsafe; rfl
  | cons item rest ih =>
    intro st acc hsafe
    obtain ⟨addr, pkt⟩ := item
    have hne := (hsafe (addr, pkt) (List.mem_cons_self _ _)).1
    have h4 := (hsafe (addr, pkt) (List.mem_cons_self _ _)).2
    unfold runUdp
    rcases hh : handle_ingress_packet env now st addr pkt with ⟨o, st', effs⟩
    have hno : o ≠ Outcome.oob := by
      have hi := ingress_no_oob env now st addr pkt hne h4
      rw [hh] at hi
      exact hi
    cases o
    · exact ih st' (acc.append effs) (fun x hx => hsafe x (List.mem_cons_of_mem _ hx))
    · exact ih st' (acc.append effs) (fun x hx => hsafe x (List.mem_cons_of_mem _ hx))
    · exact absurd rfl hno

/-- C8 (amended): per-packet and per-timer handler errors are dropped
without terminating the server — with all three sources open the poll
returns not-ready; and the loop terminates (resolves with an error)
exactly when one of the three drained channels reports closure: the
timer stream, the UDP stream, or the tunnel-egress stream.  (The
hypothesis excludes datagrams whose processing panics, cf. C9.) -/
theorem C8_loop_fatal_conditions (env : Env) (now : Nat) (st : State)
    (timerItems : List TimerMsg) (udpItems : List (Nat × List Nat))
    (tunItems : List (List Nat)) (tc uc ec : Bool)
    (hsafe : ∀ x ∈ udpItems, x.2 ≠ [] ∧ ¬(x.2.head? = some 4 ∧ x.2.length < 8)) :
    ((poll env now st timerItems tc udpItems uc tunItems ec).1 = PollResult.terminated ↔
      (tc = true ∨ uc = true ∨ ec = true)) ∧
    (tc = false → uc = false → ec = false →
      (poll env now st timerItems tc udpItems uc tunItems ec).1 = PollResult.notReady) := by
  rcases hrt : runTimers env now st Effects.empty timerItems with ⟨st1, e1⟩
  have hcrash := runUdp_no_crash env now udpItems st1 e1 hsafe
  constructor
  · cases tc <;> cases uc <;> cases ec <;> simp [poll, hrt, hcrash]
  · intro h1 h2 h3
    subst h1; subst h2; subst h3
    simp [poll, hrt, hcrash]

/-- Witness for C8: with empty batches, a closed timer stream
terminates the loop and all-open sources leave it not-ready. -/
theorem C8_loop_fatal_conditions_witness :
    (poll envT 0 stA [] true [] false [] false).1 = PollResult.terminated ∧
    (poll envT 0 stA [] false [] false [] false).1 = PollResult.notReady := by
  have h1 := C8_loop_fatal_conditions envT 0 stA [] [] [] true false false (by simp)
  have h2 := C8_loop_fatal_conditions envT 0 stA [] [] [] false false false (by simp)
  exact ⟨h1.1.mpr (Or.inl rfl), h2.2 rfl rfl rfl⟩

/-- Counterexample for C8 as stated: the server loop resolves with an
error upon closure of the timer stream alone, while the UDP stream and
the tunnel stream are both still open (the `false` flags), so UDP or
tunnel closure are not the only fatal conditions. -/
theorem C8_counterexample :
    (poll envT 0 stA [] true [] false [] false).1 = PollResult.terminated := rfl
